import Mathlib

/-!
Verification of the content-lifecycle and subscription-overlay engine of the
pastebin/file-drop worker (`src/worker.ts`).

The TypeScript source is shallowly embedded below:
* pure helpers (`parseSize`, `buildSubscriptionHeaders`, `parseUserInfo`,
  the userinfo merge, `encodeFilename`, `isAllowedFile`) become Lean functions;
* the KV store becomes an explicit `Store` value threaded through the handlers
  (`handleRaw`, `handleSub`, `handleUpload`);
* JavaScript `number` values flowing out of `parseSize` are modelled with
  exact rationals, with `none : Option Int` standing for `NaN`;
* `Date` millisecond timestamps are `Int`; the ECMAScript `Date` string parser
  is a parameter `jsd : String → Option Int` of every function that calls
  `new Date(string)` (with `none` standing for an Invalid Date), and `jsdISO`
  is a concrete executable model of it for the ISO formats the code exercises;
* `fetch` is a parameter `fetchf : String → FetchOutcome`.
-/

namespace DL

/-! ## Character classes of the `parseSize` regular expression

The source (worker.ts:132-140) is

  const parseSize = (s: string): number => {
    if (!s) return 0;
    const match = s.match(/^([\d.]+)\s*(GB|MB|TB|KB|B)?$/i);
    if (!match) return 0;
    const num = parseFloat(match[1]);
    const unit = (match[2] || 'B').toUpperCase();
    const units = { B: 1, KB: 1024, MB: 1024*1024, GB: 1024*1024*1024,
                    TB: 1024*1024*1024*1024 };
    return Math.floor(num * (units[unit] || 1));
  };
-/

/-- `[\d.]` of the size regex. -/
def isNumChar (c : Char) : Bool := c.isDigit || c == '.'

/-- `\s` of the size regex (ASCII whitespace forms; `\x0b`/`\x0c` are
JavaScript `\v`/`\f`). -/
def isJsWs (c : Char) : Bool :=
  c == ' ' || c == '\t' || c == '\n' || c == '\r' ||
  c == Char.ofNat 11 || c == Char.ofNat 12

/-- Greedy span, as a regex engine applies `X*` / `X+`. -/
def spanP (p : Char → Bool) : List Char → List Char × List Char
  | [] => ([], [])
  | c :: cs =>
    if p c then
      let r := spanP p cs
      (c :: r.1, r.2)
    else ([], c :: cs)

/-- The `(GB|MB|TB|KB|B)?` alternative with the `i` flag: the unit token in
either case, or absent. Returns the power-of-1024 multiplier (`units[unit]`),
or `none` when the trailing characters are not a unit (so the regex fails). -/
def unitMult (u : List Char) : Option Nat :=
  match u with
  | [] => some 1
  | [c] => if c == 'B' || c == 'b' then some 1 else none
  | [c1, c2] =>
    if c2 == 'B' || c2 == 'b' then
      if c1 == 'K' || c1 == 'k' then some 1024
      else if c1 == 'M' || c1 == 'm' then some (1024 * 1024)
      else if c1 == 'G' || c1 == 'g' then some (1024 * 1024 * 1024)
      else if c1 == 'T' || c1 == 't' then some (1024 * 1024 * 1024 * 1024)
      else none
    else none
  | _ => none

/-- Value of a digit run, most significant first. -/
def digitsToNat (l : List Char) : Nat :=
  l.foldl (fun a c => a * 10 + (c.toNat - 48)) 0

/-- Model of JavaScript `parseFloat` on a token drawn from `[\d.]+`:
the longest prefix that is a decimal literal (`digits`, `digits.digits`,
`digits.`, or `.digits`) is converted; a token with no such prefix (only
dots) gives `NaN`, modelled as `none`.  Exponents and signs cannot occur in
a `[\d.]+` token.  The (nonnegative) value is represented exactly as a pair
`(mant, k)` meaning `mant / 10^k` (the source computes in IEEE doubles; all
quantities exercised here are exactly representable). -/
def parseFloatTok (tok : List Char) : Option (Nat × Nat) :=
  let s1 := spanP Char.isDigit tok
  match s1.1, s1.2 with
  | [], '.' :: r2 =>
    let d2 := (spanP Char.isDigit r2).1
    if d2 = [] then none
    else some (digitsToNat d2, d2.length)
  | [], _ => none
  | d1, '.' :: r2 =>
    let d2 := (spanP Char.isDigit r2).1
    some (digitsToNat d1 * 10 ^ d2.length + digitsToNat d2, d2.length)
  | d1, _ => some (digitsToNat d1, 0)

/-- `Math.floor(num * mult)` for `num = mant / 10^k` and `mult : Nat`:
for nonnegative exact values this is the natural-number division
`mant * mult / 10^k`.  `none` models `NaN` (`Math.floor(NaN)` is `NaN`). -/
def sizeValue (numv : Option (Nat × Nat)) (mult : Nat) : Option Int :=
  match numv with
  | none => none
  | some (mant, k) => some ((mant * mult / 10 ^ k : Nat) : Int)

/-- `parseSize` (worker.ts:132-140).  `none` models a `NaN` result, which the
source can produce for dot-only numeric tokens such as `"."`. -/
def parseSize (s : String) : Option Int :=
  if s = "" then some 0
  else
    let r1 := spanP isNumChar s.data
    let r2 := spanP isJsWs r1.2
    if r1.1 = [] then some 0
    else
      match unitMult r2.2 with
      | none => some 0
      | some m => sizeValue (parseFloatTok r1.1) m

/-- JavaScript number-to-string for the values interpolated into header
parts: an integer prints its decimal digits, `NaN` prints `"NaN"`. -/
def showJSNum : Option Int → String
  | none => "NaN"
  | some n => toString n

example : parseSize "10GB" = some (10 * 1024 ^ 3) := by decide
example : parseSize "" = some 0 := by decide
example : parseSize "garbage" = some 0 := by decide
example : parseSize "5" = some 5 := by decide
example : parseSize " 5" = some 0 := by decide
example : parseSize "5 " = some 5 := by decide
example : parseSize "1.5KB" = some 1536 := by decide
example : parseSize "." = none := by decide

/-! ## Percent encoding

Models of `encodeURIComponent` and of `encodeFilename` (worker.ts:203-207). -/

/-- UTF-8 bytes of a character (scalar value encoding). -/
def utf8Bytes (c : Char) : List Nat :=
  let n := c.toNat
  if n < 0x80 then [n]
  else if n < 0x800 then [0xC0 + n / 0x40, 0x80 + n % 0x40]
  else if n < 0x10000 then
    [0xE0 + n / 0x1000, 0x80 + n / 0x40 % 0x40, 0x80 + n % 0x40]
  else
    [0xF0 + n / 0x40000, 0x80 + n / 0x1000 % 0x40, 0x80 + n / 0x40 % 0x40,
     0x80 + n % 0x40]

/-- Bytes `encodeURIComponent` leaves unescaped: `A-Z a-z 0-9 - _ . ! ~ * ' ( )`. -/
def isUnreservedByte (b : Nat) : Bool :=
  (65 ≤ b && b ≤ 90) || (97 ≤ b && b ≤ 122) || (48 ≤ b && b ≤ 57) ||
  b == 45 || b == 95 || b == 46 || b == 33 || b == 126 || b == 42 ||
  b == 39 || b == 40 || b == 41

/-- Uppercase hexadecimal digit. -/
def hexDigitChar (n : Nat) : Char :=
  "0123456789ABCDEF".data.getD n '0'

/-- Model of JavaScript `encodeURIComponent`: UTF-8 percent-encoding keeping
the unreserved set. -/
def encodeURIComponent (s : String) : String :=
  String.join <| (s.data.flatMap utf8Bytes).map fun b =>
    if isUnreservedByte b then String.mk [Char.ofNat b]
    else String.mk ['%', hexDigitChar (b / 16), hexDigitChar (b % 16)]

/-- `encodeFilename` (worker.ts:203-207): RFC 5987 value — the result of
`encodeURIComponent` with `'`, `(`, `)` (via `escape`) and `*` additionally
percent-escaped. -/
def encodeFilename (filename : String) : String :=
  let encoded := String.join <| (encodeURIComponent filename).data.map fun c =>
    if c == Char.ofNat 39 then "%27"
    else if c == '(' then "%28"
    else if c == ')' then "%29"
    else if c == '*' then "%2A"
    else String.mk [c]
  "attachment; filename*=UTF-8''" ++ encoded

example : encodeURIComponent "My Sub" = "My%20Sub" := by decide

/-! ## A concrete model of the ECMAScript `Date` string parser

`new Date(string)` is a platform primitive; every embedded function that
calls it takes a parameter `jsd : String → Option Int` returning Unix
milliseconds (`none` = Invalid Date).  `jsdISO` below is an executable model
of the primitive for the normative ISO-8601 formats the repository exercises
(`YYYY-MM-DD` and `YYYY-MM-DDTHH:MM:SS±HH:MM`, years ≥ 1970). -/

/-- Gregorian leap year. -/
def leapYear (y : Nat) : Bool :=
  (y % 4 == 0 && y % 100 != 0) || y % 400 == 0

/-- Days in a month (1-based month). -/
def daysInMonth (y m : Nat) : Nat :=
  [31, if leapYear y then 29 else 28, 31, 30, 31, 30, 31, 31, 30, 31, 30,
   31].getD (m - 1) 0

/-- Days from 1970-01-01 to the start of year `y` (for `y ≥ 1970`). -/
def daysBeforeYear (y : Nat) : Nat :=
  (y - 1970) * 365 + (((y - 1) / 4 - (y - 1) / 100 + (y - 1) / 400) - 477)

/-- Days from the start of the year to the start of month `m` (1-based). -/
def daysBeforeMonth (y m : Nat) : Nat :=
  ((List.range (m - 1)).map fun i => daysInMonth y (i + 1)).sum

/-- Two-digit value. -/
def num2 (a b : Char) : Nat := (a.toNat - 48) * 10 + (b.toNat - 48)

/-- Four-digit value. -/
def num4 (a b c d : Char) : Nat := num2 a b * 100 + num2 c d

/-- Unix milliseconds of a civil date-time (UTC), `y ≥ 1970`. -/
def civilMs (y mo d hh mm ss : Nat) : Int :=
  (((daysBeforeYear y + daysBeforeMonth y mo + (d - 1)) * 86400 +
    hh * 3600 + mm * 60 + ss : Nat) : Int) * 1000

/-- Model of the ECMAScript `Date` parser on the ISO-8601 date and
date-time-with-offset formats (a date-only form is interpreted as UTC
midnight); every other string is out of the model's scope and maps to
`none`. -/
def jsdISO (s : String) : Option Int :=
  match s.data with
  | [a, b, c, d, '-', e, f, '-', g, h] =>
    if a.isDigit && b.isDigit && c.isDigit && d.isDigit && e.isDigit &&
       f.isDigit && g.isDigit && h.isDigit then
      let y := num4 a b c d
      let mo := num2 e f
      let da := num2 g h
      if 1970 ≤ y && 1 ≤ mo && mo ≤ 12 && 1 ≤ da && da ≤ daysInMonth y mo
      then some (civilMs y mo da 0 0 0)
      else none
    else none
  | [a, b, c, d, '-', e, f, '-', g, h, 'T', h1, h2, ':', m1, m2, ':', s1,
     s2, sgn, o1, o2, ':', o3, o4] =>
    if a.isDigit && b.isDigit && c.isDigit && d.isDigit && e.isDigit &&
       f.isDigit && g.isDigit && h.isDigit && h1.isDigit && h2.isDigit &&
       m1.isDigit && m2.isDigit && s1.isDigit && s2.isDigit && o1.isDigit &&
       o2.isDigit && o3.isDigit && o4.isDigit &&
       (sgn == '+' || sgn == '-') then
      let y := num4 a b c d
      let mo := num2 e f
      let da := num2 g h
      let hh := num2 h1 h2
      let mm := num2 m1 m2
      let ss := num2 s1 s2
      let oh := num2 o1 o2
      let om := num2 o3 o4
      if 1970 ≤ y && 1 ≤ mo && mo ≤ 12 && 1 ≤ da && da ≤ daysInMonth y mo &&
         hh ≤ 23 && mm ≤ 59 && ss ≤ 59 && oh ≤ 23 && om ≤ 59 then
        let offMs : Int := ((oh * 3600 + om * 60 : Nat) : Int) * 1000
        some (civilMs y mo da hh mm ss -
          (if sgn == '+' then offMs else -offMs))
      else none
    else none
  | _ => none

example : jsdISO "2025-01-01T23:59:59+08:00" = some 1735747199000 := by decide

/-! ## Executable models of the JavaScript string primitives

`trim`, `split` and `startsWith` are modelled directly over character lists
(the core `String` versions use byte-position loops that the kernel cannot
evaluate, and JavaScript's whitespace set differs from Lean's). -/

/-- The characters JavaScript `trim()` removes (WhiteSpace ∪ LineTerminator;
the Unicode space separators beyond NBSP are omitted from the model). -/
def jsTrimWs (c : Char) : Bool :=
  c == ' ' || c == '\t' || c == '\n' || c == '\r' ||
  c == Char.ofNat 11 || c == Char.ofNat 12 || c == Char.ofNat 0xA0 ||
  c == Char.ofNat 0xFEFF || c == Char.ofNat 0x2028 || c == Char.ofNat 0x2029

/-- Model of JavaScript `s.trim()`. -/
def jsTrim (s : String) : String :=
  String.mk (((s.data.dropWhile jsTrimWs).reverse.dropWhile jsTrimWs).reverse)

/-- Splitter loop for `jsSplit`; the fuel is at least the input length, so
the `0` case is never reached. -/
def jsSplitGo (sep : List Char) : Nat → List Char → List Char →
    List (List Char)
  | 0, acc, _ => [acc.reverse]
  | fuel + 1, acc, l =>
    if !sep.isEmpty && sep.isPrefixOf l then
      acc.reverse :: jsSplitGo sep fuel [] (l.drop sep.length)
    else
      match l with
      | [] => [acc.reverse]
      | c :: cs => jsSplitGo sep fuel (c :: acc) cs

/-- Model of JavaScript `s.split(sep)` for a non-empty literal separator. -/
def jsSplit (s sep : String) : List String :=
  (jsSplitGo sep.data (s.data.length + 1) [] s.data).map String.mk

/-- Model of JavaScript `s.startsWith(p)`. -/
def jsStartsWith (s p : String) : Bool :=
  p.data.isPrefixOf s.data

example : jsSplit "upload=1; total=3" "; " = ["upload=1", "total=3"] := by
  decide
example : jsSplit "" ";" = [""] := by decide
example : jsTrim "  a b " = "a b" := by decide
example : jsStartsWith "http://x" "http" = true := by decide

/-! ## Subscription header builder (worker.ts:143-200) -/

/-- The `subscriptionInfo` overlay record: all fields independently optional
strings (`{upload?, download?, total?, expire?, name?}`). -/
structure SubInfo where
  upload : Option String
  download : Option String
  total : Option String
  expire : Option String
  name : Option String
deriving DecidableEq, Repr

/-- The two headers `buildSubscriptionHeaders` can set. -/
structure SubHeaders where
  userinfo : Option String
  contentDisposition : Option String
deriving DecidableEq, Repr

/-- Truthiness test the source applies to each field:
`subInfo.f && subInfo.f.trim() !== ''` (the field is present, non-empty, and
non-empty after trimming). -/
def truthyTrim : Option String → Bool
  | none => false
  | some s => s != "" && jsTrim s != ""

/-- The `/^\d{4}-\d{1,2}-\d{1,2}$/` bare-date test (worker.ts:177). -/
def isBareDate (s : String) : Bool :=
  match s.data with
  | [a, b, c, d, '-', e, '-', f] =>
    a.isDigit && b.isDigit && c.isDigit && d.isDigit && e.isDigit && f.isDigit
  | [a, b, c, d, '-', e, f, '-', g] =>
    a.isDigit && b.isDigit && c.isDigit && d.isDigit && e.isDigit &&
    f.isDigit && g.isDigit
  | [a, b, c, d, '-', e, '-', f, g] =>
    a.isDigit && b.isDigit && c.isDigit && d.isDigit && e.isDigit &&
    f.isDigit && g.isDigit
  | [a, b, c, d, '-', e, f, '-', g, h] =>
    a.isDigit && b.isDigit && c.isDigit && d.isDigit && e.isDigit &&
    f.isDigit && g.isDigit && h.isDigit
  | _ => false

/-- `if (subInfo.upload && ...) infoParts.push(...)` (worker.ts:159-161). -/
def uploadPart (u : Option String) : List String :=
  if truthyTrim u then ["upload=" ++ showJSNum (parseSize (u.getD ""))]
  else []

/-- worker.ts:163-165. -/
def downloadPart (d : Option String) : List String :=
  if truthyTrim d then ["download=" ++ showJSNum (parseSize (d.getD ""))]
  else []

/-- worker.ts:167-169. -/
def totalPart (t : Option String) : List String :=
  if truthyTrim t then ["total=" ++ showJSNum (parseSize (t.getD ""))]
  else []

/-- worker.ts:171-186: trim the field; if it is a bare `YYYY-M-D` date,
parse it with `'T23:59:59+08:00'` appended, otherwise parse it as given;
an Invalid Date contributes nothing, a valid one contributes
`expire=Math.floor(ms/1000)`. -/
def expirePart (jsd : String → Option Int) (e : Option String) : List String :=
  if truthyTrim e then
    let expireStr := jsTrim (e.getD "")
    let ms := if isBareDate expireStr then jsd (expireStr ++ "T23:59:59+08:00")
              else jsd expireStr
    match ms with
    | some t => ["expire=" ++ toString (Int.fdiv t 1000)]
    | none => []
  else []

/-- worker.ts:194-197: a truthy trimmed `name` yields the
content-disposition header with the percent-encoded trimmed name. -/
def nameHeader (n : Option String) : Option String :=
  if truthyTrim n then
    some ("attachment; filename*=UTF-8''" ++
      encodeURIComponent (jsTrim (n.getD "")))
  else none

/-- `buildSubscriptionHeaders` (worker.ts:143-200), parametric in the `Date`
parser `jsd`.  `none` input models a `null`/absent `subscriptionInfo`. -/
def buildSubscriptionHeaders (jsd : String → Option Int)
    (subInfo : Option SubInfo) : SubHeaders :=
  match subInfo with
  | none => ⟨none, none⟩
  | some si =>
    let hasCustomInfo := truthyTrim si.upload || truthyTrim si.download ||
      truthyTrim si.total || truthyTrim si.expire
    let infoParts := uploadPart si.upload ++ downloadPart si.download ++
      totalPart si.total ++ expirePart jsd si.expire
    let userinfo :=
      if hasCustomInfo then
        if infoParts.length > 0 then some (String.intercalate "; " infoParts)
        else none
      else none
    ⟨userinfo, nameHeader si.name⟩

example :
    buildSubscriptionHeaders jsdISO
      (some ⟨some "1GB", some "2GB", none, none, none⟩) =
    ⟨some "upload=1073741824; download=2147483648", none⟩ := by decide

example :
    buildSubscriptionHeaders jsdISO (some ⟨none, none, none, none,
      some "My Sub"⟩) =
    ⟨none, some "attachment; filename*=UTF-8''My%20Sub"⟩ := by decide

example :
    (buildSubscriptionHeaders jsdISO (some ⟨none, none, none,
      some "2025-01-01", none⟩)).userinfo = some "expire=1735747199" := by
  decide

/-! ## Record metadata and the KV store

Metadata is stored JSON-encoded under `meta:{id}` and content under
`content:{id}`; the embedding stores typed values directly (the JSON
round-trip is the identity on these records).  Timestamps (`expiresAt`,
`createdAt`, `Date.now()`) are Unix milliseconds.  `Option` fields model
`null`/`undefined` JSON values, which are falsy in every test the source
performs on them. -/

/-- The record metadata object (worker.ts:99-112). -/
structure Meta where
  id : String
  filename : String
  contentType : String
  size : Nat
  type : String
  subscriptionInfo : Option SubInfo
  originalUrl : Option String
  burnAfterRead : Bool
  expiresAt : Option Int
  maxDownloads : Option Int
  downloadCount : Option Int
  createdAt : Int
deriving DecidableEq, Repr

/-- The two KV namespaces, as maps from id. -/
structure Store where
  meta : String → Option Meta
  content : String → Option String

/-- `await env.METADATA.delete("meta:" + id)` followed by
`await env.METADATA.delete("content:" + id)`. -/
def deleteRecord (store : Store) (id : String) : Store :=
  ⟨fun k => if k = id then none else store.meta k,
   fun k => if k = id then none else store.content k⟩

/-- `await env.METADATA.put("meta:" + id, JSON.stringify(meta))`. -/
def putMeta (store : Store) (id : String) (m : Meta) : Store :=
  ⟨fun k => if k = id then some m else store.meta k, store.content⟩

/-- `await env.METADATA.put("content:" + id, content)`. -/
def putContent (store : Store) (id : String) (c : String) : Store :=
  ⟨store.meta, fun k => if k = id then some c else store.content k⟩

/-- `meta.expiresAt && new Date(meta.expiresAt) < new Date()`
(worker.ts:214/274): a null `expiresAt` is falsy, otherwise the comparison
is strict. -/
def expiredCheck (meta : Meta) (now : Int) : Bool :=
  match meta.expiresAt with
  | none => false
  | some t => decide (t < now)

/-- `meta.maxDownloads && meta.downloadCount >= meta.maxDownloads`
(worker.ts:221/281): `null` and `0` are falsy, so they disable the limit;
an absent `downloadCount` compares as false. -/
def limitCheck (meta : Meta) : Bool :=
  match meta.maxDownloads with
  | none => false
  | some m =>
    if m == 0 then false
    else
      match meta.downloadCount with
      | none => false
      | some d => decide (m ≤ d)

/-- `meta.downloadCount = (meta.downloadCount || 0) + 1` (worker.ts:229/289). -/
def bumpCount (meta : Meta) : Meta :=
  { meta with downloadCount := some (meta.downloadCount.getD 0 + 1) }

/-! ## `/raw/{id}` (worker.ts:209-266) -/

/-- Outcome of `handleRaw`.  `notFound`/`noContent` are 404, `expired` and
`limitReached` are 410, `ok` is 200 with the response's Content-Type header,
`subscription-userinfo` (when set) and Content-Disposition.  The `ok` body
carries the stored content string (the source base64-decodes it for
non-`text/*` content types before responding). -/
inductive RawResult where
  | notFound
  | expired
  | limitReached
  | noContent
  | ok (body : String) (contentTypeHeader : String)
      (userinfo : Option String) (contentDisposition : Option String)
deriving DecidableEq, Repr

/-- `handleRaw` (worker.ts:209-266), returning the updated store and the
response. -/
def handleRaw (store : Store) (id : String) (now : Int)
    (jsd : String → Option Int) : Store × RawResult :=
  match store.meta id with
  | none => (store, .notFound)
  | some meta =>
    if expiredCheck meta now then (deleteRecord store id, .expired)
    else if limitCheck meta then (store, .limitReached)
    else
      match store.content id with
      | none => (store, .noContent)
      | some content =>
        let store2 := if meta.burnAfterRead then deleteRecord store id
                      else putMeta store id (bumpCount meta)
        let subH := buildSubscriptionHeaders jsd meta.subscriptionInfo
        let ctHeader := if jsStartsWith meta.contentType "text/" then
            meta.contentType ++ "; charset=utf-8"
          else meta.contentType
        let cd := match subH.contentDisposition with
          | some c => some c
          | none => some (encodeFilename meta.filename)
        (store2, .ok content ctHeader subH.userinfo cd)

/-- Whether a `RawResult` is the 200 success case. -/
def isOkRaw : RawResult → Bool
  | .ok _ _ _ _ => true
  | _ => false

/-! ## `/sub/{id}` (worker.ts:269-390) -/

/-- Outcome of the `fetch` of the upstream subscription URL: a thrown
network error, or a response with `ok`/status/statusText, the body text and
the three response headers the handler reads (absent = `null`). -/
inductive FetchOutcome where
  | netError (msg : String)
  | response (ok : Bool) (status : Nat) (statusText : String) (body : String)
      (userinfo : Option String) (contentDisposition : Option String)
      (profileUpdateInterval : Option String)
deriving DecidableEq, Repr

/-- `parseUserInfo` (worker.ts:329-337): split the header on `;`, trim each
part, split it on `=`; keep the first two components as key/value when both
are truthy, trimming each; assignment into the record keeps first-insertion
order and overwrites the value of an existing key in place. -/
def recUpdate (m : List (String × String)) (k v : String) :
    List (String × String) :=
  if (m.lookup k).isSome then
    m.map fun p => if p.1 = k then (k, v) else p
  else m ++ [(k, v)]

/-- The field→value map parsed from an upstream `subscription-userinfo`
header, in insertion order. -/
def parseUserInfo (header : Option String) : List (String × String) :=
  match header with
  | none => []
  | some h =>
    (jsSplit h ";").foldl
      (fun result part =>
        let pieces := jsSplit (jsTrim part) "="
        let key := pieces.headD ""
        match pieces.get? 1 with
        | some value =>
          if key != "" && value != "" then
            recUpdate result (jsTrim key) (jsTrim value)
          else result
        | none => result)
      []

/-- The userinfo merge (worker.ts:345-359): when the custom builder produced
a `subscription-userinfo` value, its parts keep their order and every
upstream field whose name is not among the custom part names is appended as
`key=value` in upstream order; otherwise a truthy upstream header passes
through unchanged. -/
def mergeUserInfo (custom : Option String) (upstream : Option String) :
    Option String :=
  match custom with
  | some cu =>
    let customParts := jsSplit cu "; "
    let customKeys := customParts.map fun p => (jsSplit p "=").headD ""
    let extra := ((parseUserInfo upstream).filter fun kv =>
      !customKeys.contains kv.1).map fun kv => kv.1 ++ "=" ++ kv.2
    some (String.intercalate "; " (customParts ++ extra))
  | none =>
    match upstream with
    | some u => if u != "" then some u else none
    | none => none

/-- The headers of a successful proxied `/sub` response. -/
structure SubRespHeaders where
  userinfo : Option String
  contentDisposition : Option String
  profileUpdateInterval : Option String
deriving DecidableEq, Repr

/-- Outcome of `handleSub`.  `notFound`/`noContent` are 404, `expired` and
`limitReached` are 410, `upstreamError` is 502, `okSub` is the proxied
subscription response and `okPlain` the verbatim non-subscription content
(both 200). -/
inductive SubResult where
  | notFound
  | expired
  | limitReached
  | noContent
  | upstreamError (msg : String)
  | okSub (body : String) (headers : SubRespHeaders)
  | okPlain (body : String)
deriving DecidableEq, Repr

/-- `handleSub` (worker.ts:269-390), parametric in the `fetch` primitive. -/
def handleSub (store : Store) (id : String) (now : Int)
    (jsd : String → Option Int) (fetchf : String → FetchOutcome) :
    Store × SubResult :=
  match store.meta id with
  | none => (store, .notFound)
  | some meta =>
    if expiredCheck meta now then (deleteRecord store id, .expired)
    else if limitCheck meta then (store, .limitReached)
    else
      match store.content id with
      | none => (store, .noContent)
      | some content =>
        let store2 := if meta.burnAfterRead then deleteRecord store id
                      else putMeta store id (bumpCount meta)
        if meta.type == "subscription" && jsStartsWith content "http" then
          match fetchf content with
          | .netError msg =>
            (store2, .upstreamError ("Failed to fetch subscription: " ++ msg))
          | .response ok status statusText body uinfo cdU pui =>
            if !ok then
              (store2, .upstreamError ("Failed to fetch subscription: " ++
                toString status ++ " " ++ statusText))
            else
              let subH := buildSubscriptionHeaders jsd meta.subscriptionInfo
              let cdOut := match subH.contentDisposition with
                | some c => some c
                | none =>
                  match cdU with
                  | some c => if c != "" then some c else none
                  | none => none
              let puiOut := match pui with
                | some p => if p != "" then some p else none
                | none => none
              (store2, .okSub body
                ⟨mergeUserInfo subH.userinfo uinfo, cdOut, puiOut⟩)
        else (store2, .okPlain content)

/-! ## Upload (worker.ts:40-119) -/

/-- `isAllowedFile` (worker.ts:36-38): only the MIME type is examined;
image, video and audio categories are blocked. -/
def isAllowedFile (_filename : String) (mime : String) : Bool :=
  !(jsStartsWith mime "image/" || jsStartsWith mime "video/" ||
    jsStartsWith mime "audio/")

/-- Model of JavaScript `parseInt(s)` (radix 10): trimmed optional sign
followed by a longest digit prefix; no digits gives `NaN` (`none`). -/
def jsParseInt (s : String) : Option Int :=
  let t := (jsTrim s).data
  let signed : Int × List Char :=
    match t with
    | '-' :: r => (-1, r)
    | '+' :: r => (1, r)
    | r => (1, r)
  let digs := signed.2.takeWhile Char.isDigit
  if digs.isEmpty then none
  else some (signed.1 * (digitsToNat digs : Int))

/-- Base64 alphabet. -/
def b64Char (n : Nat) : Char :=
  "ABCDEFGHIJKLMNOPQRSTUVWXYZabcdefghijklmnopqrstuvwxyz0123456789+/".data.getD
    n 'A'

/-- `btoa` over the file's bytes (worker.ts:69-74): standard base64 with
padding. -/
def base64Encode : List Nat → String
  | [] => ""
  | [a] =>
    String.mk [b64Char (a / 4), b64Char (a % 4 * 16)] ++ "=="
  | [a, b] =>
    String.mk [b64Char (a / 4), b64Char (a % 4 * 16 + b / 16),
      b64Char (b % 16 * 4)] ++ "="
  | a :: b :: c :: rest =>
    String.mk [b64Char (a / 4), b64Char (a % 4 * 16 + b / 16),
      b64Char (b % 16 * 4 + c / 64), b64Char (c % 64)] ++ base64Encode rest

/-- A `File` from the multipart form: name, MIME type and raw bytes
(`file.size` is the byte count). -/
structure MFile where
  name : String
  mime : String
  bytes : List Nat
deriving DecidableEq, Repr

/-- An upload request body.  The multipart variant carries the form fields
as the strings `formData.get` returns (`none` = absent field); its
`subscriptionInfo` field is the result of `JSON.parse` on the corresponding
form value (`none` when absent or unparsable).  The JSON variant carries the
parsed body with `none` for absent members. -/
inductive UploadBody where
  | multipart (file : Option MFile) (typeField : Option String)
      (burnField : Option String) (expiresField : Option String)
      (maxField : Option String) (slugField : Option String)
      (subInfoField : Option SubInfo)
  | jsonBody (content : Option String) (filename : Option String)
      (contentType : Option String) (typeField : Option String)
      (subInfo : Option SubInfo) (burnAfterRead : Bool)
      (expiresIn : Option Int) (maxDownloads : Option Int)
      (customSlug : Option String)
deriving DecidableEq, Repr

/-- Outcome of `handleUpload`: 400 with the error message, or
`{id, url}`. -/
inductive UploadResult where
  | badRequest (msg : String)
  | success (id : String) (url : String)
deriving DecidableEq, Repr

/-- JavaScript `x || default` for an optional string field. -/
def jsOrStr (o : Option String) (d : String) : String :=
  match o with
  | some s => if s = "" then d else s
  | none => d

/-- JavaScript `x || null` for an optional string field. -/
def jsOrNullStr (o : Option String) : Option String :=
  match o with
  | some s => if s = "" then none else some s
  | none => none

/-- JavaScript `x || null` for an optional number field (`0` is falsy). -/
def jsOrNullNum (o : Option Int) : Option Int :=
  match o with
  | some n => if n = 0 then none else some n
  | none => none

/-- The shared tail of `handleUpload` (worker.ts:88-118): id assignment,
custom-slug duplicate check, `expiresAt` computation, record construction
and the two puts.  `freshId` stands for the `generateId()` call. -/
def finishUpload (store : Store) (now : Int) (freshId : String)
    (content filename mime type : String) (subscriptionInfo : Option SubInfo)
    (burnAfterRead : Bool) (expiresIn : Option Int) (maxDownloads : Option Int)
    (customSlug : Option String) : Store × UploadResult :=
  let id := match customSlug with
    | some s => s
    | none => freshId
  let dup := match customSlug with
    | some s => (store.meta s).isSome
    | none => false
  if dup then (store, .badRequest "Custom slug already exists")
  else
    let expiresAt : Option Int := match expiresIn with
      | some h => if h = 0 then none else some (now + h * 3600 * 1000)
      | none => none
    let meta : Meta :=
      { id := id
        filename := filename
        contentType := mime
        size := content.length
        type := type
        subscriptionInfo := subscriptionInfo
        originalUrl := if type = "subscription" then some content else none
        burnAfterRead := burnAfterRead
        expiresAt := expiresAt
        maxDownloads := maxDownloads
        downloadCount := some 0
        createdAt := now }
    let store2 := putMeta (putContent store id content) id meta
    let url := if type = "subscription" then "/sub/" ++ id else "/raw/" ++ id
    (store2, .success id url)

/-- `handleUpload` (worker.ts:40-119).  The multipart branch validates the
file size and MIME type; the JSON branch performs no such validation. -/
def handleUpload (body : UploadBody) (store : Store) (now : Int)
    (freshId : String) : Store × UploadResult :=
  match body with
  | .multipart file typeField burnField expiresField maxField slugField
      subInfoField =>
    match file with
    | none => (store, .badRequest "No file")
    | some f =>
      if f.bytes.length > 25 * 1024 * 1024 then
        (store, .badRequest "Too large")
      else if !isAllowedFile f.name f.mime then
        (store, .badRequest "File type blocked")
      else
        let mime := if f.mime = "" then "application/octet-stream"
                    else f.mime
        let type := jsOrStr typeField "file"
        let burnAfterRead := burnField == some "true"
        let expiresIn := match expiresField with
          | some s => if s ≠ "" then jsParseInt s else none
          | none => none
        let maxDownloads := match maxField with
          | some s => if s ≠ "" then jsParseInt s else none
          | none => none
        let customSlug := jsOrNullStr slugField
        let content := base64Encode f.bytes
        finishUpload store now freshId content f.name mime type subInfoField
          burnAfterRead expiresIn maxDownloads customSlug
  | .jsonBody content filename contentType typeField subInfo burnAfterRead
      expiresIn maxDownloads customSlug =>
    finishUpload store now freshId (jsOrStr content "")
      (jsOrStr filename "text.txt") (jsOrStr contentType "text/plain")
      (jsOrStr typeField "text") subInfo burnAfterRead
      (jsOrNullNum expiresIn) (jsOrNullNum maxDownloads)
      (jsOrNullStr customSlug)

/-! ## Helper lemmas -/

lemma limitCheck_true {meta : Meta} {m d : Int}
    (hmax : meta.maxDownloads = some m) (hm0 : m ≠ 0)
    (hdc : meta.downloadCount = some d) (hld : m ≤ d) :
    limitCheck meta = true := by
  simp [limitCheck, hmax, hdc, hm0, hld]

lemma limitCheck_false_of_falsy {meta : Meta}
    (h : meta.maxDownloads = none ∨ meta.maxDownloads = some 0) :
    limitCheck meta = false := by
  rcases h with h | h <;> simp [limitCheck, h]

lemma expiredCheck_true {meta : Meta} {t now : Int}
    (ht : meta.expiresAt = some t) (hlt : t < now) :
    expiredCheck meta now = true := by
  simp [expiredCheck, ht, hlt]

lemma deleteRecord_meta (store : Store) (id : String) :
    (deleteRecord store id).meta id = none := by
  simp [deleteRecord]

lemma deleteRecord_content (store : Store) (id : String) :
    (deleteRecord store id).content id = none := by
  simp [deleteRecord]

lemma handleRaw_notFound {store : Store} {id : String}
    (h : store.meta id = none) (now : Int) (jsd : String → Option Int) :
    handleRaw store id now jsd = (store, RawResult.notFound) := by
  simp [handleRaw, h]

lemma handleSub_notFound {store : Store} {id : String}
    (h : store.meta id = none) (now : Int) (jsd : String → Option Int)
    (fetchf : String → FetchOutcome) :
    handleSub store id now jsd fetchf = (store, SubResult.notFound) := by
  simp [handleSub, h]

/-! ## Claims about the read lifecycle -/

/-- **C2.** A read of a non-expired record whose (truthy) `maxDownloads` has
been reached by `downloadCount` fails with 410 "Download limit reached" on
both `/raw` and `/sub`, and the store — hence the record's metadata,
content, and `downloadCount` — is returned unchanged.  (The expiry check
precedes the limit check, so the claim's record is taken as non-expired,
per C3; `maxDownloads` "set" means set to a non-zero value, per C10.) -/
theorem c2_limit_reached_rejects_and_preserves
    (store : Store) (id : String) (now : Int) (jsd : String → Option Int)
    (fetchf : String → FetchOutcome) (meta : Meta) (m d : Int)
    (hm : store.meta id = some meta)
    (hexp : expiredCheck meta now = false)
    (hmax : meta.maxDownloads = some m) (hm0 : m ≠ 0)
    (hdc : meta.downloadCount = some d) (hld : m ≤ d) :
    handleRaw store id now jsd = (store, RawResult.limitReached) ∧
    handleSub store id now jsd fetchf = (store, SubResult.limitReached) := by
  have hl : limitCheck meta = true := limitCheck_true hmax hm0 hdc hld
  constructor
  · simp [handleRaw, hm, hexp, hl]
  · simp [handleSub, hm, hexp, hl]

/-- The record used by the C2 witness: `maxDownloads = 1`,
`downloadCount = 1`. -/
def metaC2 : Meta :=
  ⟨"a", "f.txt", "text/plain", 5, "text", none, none, false, none, some 1,
   some 1, 0⟩

/-- Store holding only `metaC2` under id `"a"`. -/
def storeC2 : Store :=
  ⟨fun k => if k = "a" then some metaC2 else none,
   fun k => if k = "a" then some "hello" else none⟩

/-- Witness for C2 at a concrete store. -/
theorem c2_witness :
    handleRaw storeC2 "a" 0 jsdISO = (storeC2, RawResult.limitReached) ∧
    handleSub storeC2 "a" 0 jsdISO (fun _ => FetchOutcome.netError "x") =
      (storeC2, SubResult.limitReached) :=
  c2_limit_reached_rejects_and_preserves storeC2 "a" 0 jsdISO _ metaC2 1 1
    (by decide) (by decide) (by decide) (by decide) (by decide) (by decide)

/-- **C3.** A read of a record whose `expiresAt` is strictly in the past
deletes both the metadata and the content entry and fails with 410
(`expired`), on both `/raw` and `/sub`; afterwards any read of that id, by
either handler, at any time, returns 404 NotFound. -/
theorem c3_expired_read_deletes_and_subsequent_not_found
    (store : Store) (id : String) (now : Int) (jsd : String → Option Int)
    (fetchf : String → FetchOutcome) (meta : Meta) (t : Int)
    (hm : store.meta id = some meta)
    (ht : meta.expiresAt = some t) (hlt : t < now) :
    handleRaw store id now jsd = (deleteRecord store id, RawResult.expired) ∧
    handleSub store id now jsd fetchf =
      (deleteRecord store id, SubResult.expired) ∧
    (deleteRecord store id).meta id = none ∧
    (deleteRecord store id).content id = none ∧
    (∀ now₂ jsd₂, handleRaw (deleteRecord store id) id now₂ jsd₂ =
      (deleteRecord store id, RawResult.notFound)) ∧
    (∀ now₂ jsd₂ fetchf₂, handleSub (deleteRecord store id) id now₂ jsd₂
      fetchf₂ = (deleteRecord store id, SubResult.notFound)) := by
  have he : expiredCheck meta now = true := expiredCheck_true ht hlt
  refine ⟨by simp [handleRaw, hm, he], by simp [handleSub, hm, he],
    deleteRecord_meta store id, deleteRecord_content store id,
    fun now₂ jsd₂ => handleRaw_notFound (deleteRecord_meta store id) now₂ jsd₂,
    fun now₂ jsd₂ fetchf₂ =>
      handleSub_notFound (deleteRecord_meta store id) now₂ jsd₂ fetchf₂⟩

/-- The record used by the C3 witness: expired at time `-1`, read at time
`0`. -/
def metaC3 : Meta :=
  ⟨"a", "f.txt", "text/plain", 5, "text", none, none, false, some (-1), none,
   some 0, 0⟩

/-- Store holding only `metaC3` under id `"a"`. -/
def storeC3 : Store :=
  ⟨fun k => if k = "a" then some metaC3 else none,
   fun k => if k = "a" then some "hello" else none⟩

/-- Witness for C3 at a concrete store. -/
theorem c3_witness :
    handleRaw storeC3 "a" 0 jsdISO =
      (deleteRecord storeC3 "a", RawResult.expired) ∧
    (deleteRecord storeC3 "a").meta "a" = none ∧
    handleRaw (deleteRecord storeC3 "a") "a" 99 jsdISO =
      (deleteRecord storeC3 "a", RawResult.notFound) := by
  have h := c3_expired_read_deletes_and_subsequent_not_found storeC3 "a" 0
    jsdISO (fun _ => FetchOutcome.netError "x") metaC3 (-1) (by decide)
    (by decide) (by decide)
  exact ⟨h.1, h.2.2.1, h.2.2.2.2.1 99 jsdISO⟩

lemma handleRaw_success_eq {store : Store} {id : String} {now : Int}
    {jsd : String → Option Int} {meta : Meta} {content : String}
    (hm : store.meta id = some meta)
    (hexp : expiredCheck meta now = false)
    (hlim : limitCheck meta = false)
    (hc : store.content id = some content) :
    handleRaw store id now jsd =
      ((if meta.burnAfterRead then deleteRecord store id
        else putMeta store id (bumpCount meta)),
       RawResult.ok content
        (if jsStartsWith meta.contentType "text/" then
          meta.contentType ++ "; charset=utf-8" else meta.contentType)
        (buildSubscriptionHeaders jsd meta.subscriptionInfo).userinfo
        (match (buildSubscriptionHeaders jsd
            meta.subscriptionInfo).contentDisposition with
         | some c => some c
         | none => some (encodeFilename meta.filename))) := by
  simp [handleRaw, hm, hexp, hlim, hc]

lemma handleSub_fst_eq {store : Store} {id : String} {now : Int}
    {jsd : String → Option Int} {fetchf : String → FetchOutcome} {meta : Meta}
    {content : String}
    (hm : store.meta id = some meta)
    (hexp : expiredCheck meta now = false)
    (hlim : limitCheck meta = false)
    (hc : store.content id = some content) :
    (handleSub store id now jsd fetchf).1 =
      (if meta.burnAfterRead then deleteRecord store id
       else putMeta store id (bumpCount meta)) := by
  simp [handleSub, hm, hexp, hlim, hc]
  split
  all_goals try rfl
  all_goals split <;> try rfl
  all_goals split <;> rfl

lemma putMeta_meta (store : Store) (id : String) (m : Meta) :
    (putMeta store id m).meta id = some m := by
  simp [putMeta]

lemma putMeta_content (store : Store) (id : String) (m : Meta) :
    (putMeta store id m).content = store.content := rfl

/-- **C1.** A successful read (existing, non-expired, non-limit-reached
record with content present) succeeds with 200, `downloadCount` becomes its
old value (defaulting to 0) plus one — so it never decreases — and exactly
one of the following happens: with `burnAfterRead` both entries are deleted
(and any second read of the id, by either handler, is 404 NotFound);
without it the updated metadata (and only it) is persisted.  `/sub` applies
the identical store update. -/
theorem c1_successful_read_updates_count_and_burns_or_persists
    (store : Store) (id : String) (now : Int) (jsd : String → Option Int)
    (meta : Meta) (content : String)
    (hm : store.meta id = some meta)
    (hexp : expiredCheck meta now = false)
    (hlim : limitCheck meta = false)
    (hc : store.content id = some content) :
    isOkRaw (handleRaw store id now jsd).2 = true ∧
    (∀ fetchf, (handleSub store id now jsd fetchf).1 =
      (handleRaw store id now jsd).1) ∧
    bumpCount meta =
      { meta with downloadCount := some (meta.downloadCount.getD 0 + 1) } ∧
    (meta.burnAfterRead = true →
      (handleRaw store id now jsd).1.meta id = none ∧
      (handleRaw store id now jsd).1.content id = none ∧
      (∀ now₂ jsd₂, handleRaw (handleRaw store id now jsd).1 id now₂ jsd₂ =
        ((handleRaw store id now jsd).1, RawResult.notFound)) ∧
      (∀ now₂ jsd₂ fetchf₂,
        handleSub (handleRaw store id now jsd).1 id now₂ jsd₂ fetchf₂ =
        ((handleRaw store id now jsd).1, SubResult.notFound))) ∧
    (meta.burnAfterRead = false →
      (handleRaw store id now jsd).1.meta id = some (bumpCount meta) ∧
      (handleRaw store id now jsd).1.content id = some content) := by
  have hr := @handleRaw_success_eq store id now jsd meta content hm hexp hlim
    hc
  refine ⟨by rw [hr]; rfl,
    fun fetchf => by
      rw [@handleSub_fst_eq store id now jsd fetchf meta content hm hexp hlim
        hc, hr],
    rfl, fun hb => ?_, fun hb => ?_⟩
  · rw [hr]
    simp only [hb, if_true]
    exact ⟨deleteRecord_meta store id, deleteRecord_content store id,
      fun now₂ jsd₂ => handleRaw_notFound (deleteRecord_meta store id) now₂
        jsd₂,
      fun now₂ jsd₂ fetchf₂ => handleSub_notFound (deleteRecord_meta store id)
        now₂ jsd₂ fetchf₂⟩
  · rw [hr]
    simp only [hb, if_false, Bool.false_eq_true]
    exact ⟨putMeta_meta store id (bumpCount meta),
      by rw [putMeta_content]; exact hc⟩

/-- The burn-after-read record used by the C1 witness. -/
def metaC1 : Meta :=
  ⟨"a", "f.txt", "text/plain", 5, "text", none, none, true, none, none,
   some 0, 0⟩

/-- Store holding only `metaC1` under id `"a"`. -/
def storeC1 : Store :=
  ⟨fun k => if k = "a" then some metaC1 else none,
   fun k => if k = "a" then some "hello" else none⟩

/-- Witness for C1 at a concrete burn-after-read store: the first read
succeeds, after it the record is gone, and a second read is NotFound. -/
theorem c1_witness :
    isOkRaw (handleRaw storeC1 "a" 0 jsdISO).2 = true ∧
    (handleRaw storeC1 "a" 0 jsdISO).1.meta "a" = none ∧
    handleRaw (handleRaw storeC1 "a" 0 jsdISO).1 "a" 7 jsdISO =
      ((handleRaw storeC1 "a" 0 jsdISO).1, RawResult.notFound) := by
  have h := c1_successful_read_updates_count_and_burns_or_persists storeC1
    "a" 0 jsdISO metaC1 "hello" (by decide) (by decide) (by decide)
    (by decide)
  exact ⟨h.1, (h.2.2.2.1 rfl).1, (h.2.2.2.1 rfl).2.2.1 7 jsdISO⟩

/-! ## C10: falsy `maxDownloads` disables the limit -/

/-- `n` successive `/raw` reads of `id`, the `i`-th at time `times i`. -/
def iterReadStore (id : String) (jsd : String → Option Int)
    (times : Nat → Int) : Nat → Store → Store
  | 0, s => s
  | n + 1, s =>
    (handleRaw (iterReadStore id jsd times n s) id (times n) jsd).1

/-- Invariant for C10: the store holds, under `id`, a never-expiring,
non-burning record with falsy `maxDownloads`, and the content entry. -/
def GoodState (id content : String) (s : Store) : Prop :=
  ∃ meta : Meta, s.meta id = some meta ∧ meta.expiresAt = none ∧
    meta.burnAfterRead = false ∧
    (meta.maxDownloads = none ∨ meta.maxDownloads = some 0) ∧
    s.content id = some content

lemma good_step {id content : String} {s : Store}
    (h : GoodState id content s) (now : Int) (jsd : String → Option Int) :
    isOkRaw (handleRaw s id now jsd).2 = true ∧
    GoodState id content (handleRaw s id now jsd).1 := by
  obtain ⟨meta, hm, hexp, hburn, hmax, hc⟩ := h
  have hexp' : expiredCheck meta now = false := by simp [expiredCheck, hexp]
  have hlim : limitCheck meta = false := limitCheck_false_of_falsy hmax
  have hr := @handleRaw_success_eq s id now jsd meta content hm hexp' hlim hc
  refine ⟨by rw [hr]; rfl, ?_⟩
  rw [hr]
  simp only [hburn, if_false, Bool.false_eq_true]
  exact ⟨bumpCount meta, putMeta_meta s id (bumpCount meta), hexp, hburn,
    hmax, by rw [putMeta_content]; exact hc⟩

lemma good_iter {id content : String} {s : Store}
    (h : GoodState id content s) (jsd : String → Option Int)
    (times : Nat → Int) :
    ∀ n, GoodState id content (iterReadStore id jsd times n s) := by
  intro n
  induction n with
  | zero => exact h
  | succ n ih => exact (good_step ih (times n) jsd).2

/-- **C10.** A falsy `maxDownloads` (absent/`null`, or `0`) disables the
download-limit check entirely: `limitCheck` is false for every such record
regardless of `downloadCount`, `/sub` never answers "Download limit
reached" for it, and an otherwise unconstrained record with falsy
`maxDownloads` can be read on `/raw` any number of times, every read
succeeding. -/
theorem c10_falsy_max_downloads_unlimited
    (store : Store) (id content : String) (jsd : String → Option Int)
    (times : Nat → Int) (meta : Meta)
    (hm : store.meta id = some meta)
    (hmax : meta.maxDownloads = none ∨ meta.maxDownloads = some 0)
    (hexp : meta.expiresAt = none) (hburn : meta.burnAfterRead = false)
    (hc : store.content id = some content) :
    limitCheck meta = false ∧
    (∀ now fetchf, (handleSub store id now jsd fetchf).2 ≠
      SubResult.limitReached) ∧
    (∀ n, isOkRaw
      (handleRaw (iterReadStore id jsd times n store) id (times n) jsd).2 =
      true) := by
  have hlim : limitCheck meta = false := limitCheck_false_of_falsy hmax
  have hexp' : ∀ now, expiredCheck meta now = false := fun now => by
    simp [expiredCheck, hexp]
  refine ⟨hlim, fun now fetchf => ?_, fun n => ?_⟩
  · simp only [handleSub, hm]
    rw [hexp' now]
    simp only [hlim]
    cases hcc : store.content id with
    | none => simp
    | some c =>
      simp only [Bool.false_eq_true, if_false]
      split
      all_goals try simp
      all_goals split <;> try simp
      all_goals split <;> simp
  · exact (good_step (good_iter ⟨meta, hm, hexp, hburn, hmax, hc⟩ jsd times n)
      (times n) jsd).1

/-- The unlimited record used by the C10 witness: `maxDownloads = 0`,
`downloadCount` already `5`. -/
def metaC10 : Meta :=
  ⟨"a", "f.txt", "text/plain", 5, "text", none, none, false, none, some 0,
   some 5, 0⟩

/-- Store holding only `metaC10` under id `"a"`. -/
def storeC10 : Store :=
  ⟨fun k => if k = "a" then some metaC10 else none,
   fun k => if k = "a" then some "hello" else none⟩

/-- Witness for C10 at a concrete store: the limit check is off and the
third successive read still succeeds. -/
theorem c10_witness :
    limitCheck metaC10 = false ∧
    isOkRaw (handleRaw (iterReadStore "a" jsdISO (fun _ => 0) 3 storeC10) "a"
      0 jsdISO).2 = true := by
  have h := c10_falsy_max_downloads_unlimited storeC10 "a" "hello" jsdISO
    (fun _ => 0) metaC10 (by decide) (by decide) (by decide) (by decide)
    (by decide)
  exact ⟨h.1, h.2.2 3⟩

/-! ## C4: the `/sub` upstream userinfo merge -/

/-- **C4.** On a successful proxied `/sub` read, the response's
`subscription-userinfo` is `mergeUserInfo` of the custom builder's value and
the upstream header, where: a custom value keeps its parts in their original
order followed by `field=upstreamValue` for every upstream field not among
the custom part names, in upstream order; with no custom value a (truthy)
upstream header passes through unchanged; and the spec's concrete example
merges as stated. -/
theorem c4_sub_userinfo_merge
    (store : Store) (id : String) (now : Int) (jsd : String → Option Int)
    (fetchf : String → FetchOutcome) (meta : Meta) (content : String)
    (status : Nat) (statusText body : String) (uinfo cdU pui : Option String)
    (hm : store.meta id = some meta)
    (hexp : expiredCheck meta now = false)
    (hlim : limitCheck meta = false)
    (hc : store.content id = some content)
    (htype : meta.type = "subscription")
    (hhttp : jsStartsWith content "http" = true)
    (hfetch : fetchf content =
      FetchOutcome.response true status statusText body uinfo cdU pui) :
    ((handleSub store id now jsd fetchf).2 = SubResult.okSub body
      ⟨mergeUserInfo (buildSubscriptionHeaders jsd
          meta.subscriptionInfo).userinfo uinfo,
       (match (buildSubscriptionHeaders jsd
           meta.subscriptionInfo).contentDisposition with
        | some c => some c
        | none =>
          match cdU with
          | some c => if c != "" then some c else none
          | none => none),
       (match pui with
        | some p => if p != "" then some p else none
        | none => none)⟩) ∧
    (∀ cu up, mergeUserInfo (some cu) up =
      some (String.intercalate "; "
        (jsSplit cu "; " ++
         (((parseUserInfo up).filter fun kv =>
            !((jsSplit cu "; ").map fun p =>
              (jsSplit p "=").headD "").contains kv.1).map
           fun kv => kv.1 ++ "=" ++ kv.2)))) ∧
    (∀ u, u ≠ "" → mergeUserInfo none (some u) = some u) ∧
    mergeUserInfo none none = none ∧
    mergeUserInfo
      (buildSubscriptionHeaders jsdISO
        (some ⟨some "1", none, some "3", none, none⟩)).userinfo
      (some "upload=100; download=200; total=300; expire=999") =
      some "upload=1; total=3; download=200; expire=999" := by
  refine ⟨?_, fun cu up => rfl, fun u hu => by simp [mergeUserInfo, hu], rfl,
    by decide⟩
  simp [handleSub, hm, hexp, hlim, hc, htype, hhttp, hfetch]
  constructor
  · cases (buildSubscriptionHeaders jsd meta.subscriptionInfo)
      |>.contentDisposition <;> cases cdU <;> rfl
  · cases pui <;> rfl

/-- The subscription record used by the C4 witness. -/
def metaC4 : Meta :=
  ⟨"a", "sub", "text/plain", 10, "subscription",
   some ⟨some "1", none, some "3", none, none⟩, some "http://u", false, none,
   none, some 0, 0⟩

/-- Store holding only `metaC4` under id `"a"`, content the upstream URL. -/
def storeC4 : Store :=
  ⟨fun k => if k = "a" then some metaC4 else none,
   fun k => if k = "a" then some "http://u" else none⟩

/-- Upstream fetch stub for the C4 witness: 200 with the spec's example
`subscription-userinfo`. -/
def fetchC4 : String → FetchOutcome := fun _ =>
  FetchOutcome.response true 200 "OK" "BODY"
    (some "upload=100; download=200; total=300; expire=999") none none

/-- Witness for C4: the spec's concrete merge example, obtained by applying
the theorem at a concrete store and fetch stub. -/
theorem c4_witness :
    mergeUserInfo
      (buildSubscriptionHeaders jsdISO
        (some ⟨some "1", none, some "3", none, none⟩)).userinfo
      (some "upload=100; download=200; total=300; expire=999") =
      some "upload=1; total=3; download=200; expire=999" :=
  (c4_sub_userinfo_merge storeC4 "a" 0 jsdISO fetchC4 metaC4 "http://u" 200
    "OK" "BODY" (some "upload=100; download=200; total=300; expire=999") none
    none (by decide) (by decide) (by decide) (by decide) (by decide)
    (by decide) rfl).2.2.2.2

/-! ## C5, C6, C8: structure of the header builder -/

lemma jsTrim_empty : jsTrim "" = "" := rfl

lemma truthyTrim_some (s : String) : truthyTrim (some s) = (jsTrim s != "") := by
  by_cases h : jsTrim s = ""
  · simp [truthyTrim, h]
  · have hs : s ≠ "" := fun he => h (by rw [he]; rfl)
    simp [truthyTrim, h, hs]

/-- The builder's output decomposed into its independent per-field parts. -/
lemma buildHeaders_decomp (jsd : String → Option Int) (si : SubInfo) :
    buildSubscriptionHeaders jsd (some si) =
      ⟨(let parts := uploadPart si.upload ++ downloadPart si.download ++
          totalPart si.total ++ expirePart jsd si.expire
        if parts.length > 0 then some (String.intercalate "; " parts)
        else none),
       nameHeader si.name⟩ := by
  cases h1 : truthyTrim si.upload <;> cases h2 : truthyTrim si.download <;>
    cases h3 : truthyTrim si.total <;> cases h4 : truthyTrim si.expire <;>
    simp [buildSubscriptionHeaders, uploadPart, downloadPart, totalPart,
      expirePart, h1, h2, h3, h4]

/-- **C8.** `buildSubscriptionHeaders` is a total function (the embedding is
a plain Lean function — no exception or abort exists on any input), and its
output decomposes field by field: a `null` info gives the empty mapping, and
otherwise the userinfo value is assembled from four part lists, each a
function of exactly one field (so a field whose handling fails — e.g. an
unparsable `expire` date, whose part list is then empty — only omits that
field), while the content-disposition depends only on `name`. -/
theorem c8_build_headers_total_and_independent :
    (∀ jsd : String → Option Int,
      buildSubscriptionHeaders jsd none = ⟨none, none⟩) ∧
    (∀ (jsd : String → Option Int) (si : SubInfo),
      buildSubscriptionHeaders jsd (some si) =
        ⟨(let parts := uploadPart si.upload ++ downloadPart si.download ++
            totalPart si.total ++ expirePart jsd si.expire
          if parts.length > 0 then some (String.intercalate "; " parts)
          else none),
         nameHeader si.name⟩) :=
  ⟨fun _ => rfl, buildHeaders_decomp⟩

/-- **C5.** `buildSubscriptionHeaders` returns the empty mapping on `null`;
each of upload/download/total contributes the part `field=parseSize(value)`
exactly when the field's string is non-empty after trimming; the parts are
assembled in the fixed order upload, download, total, expire and joined with
`"; "` as `subscription-userinfo` when any exist; independently a name that
is non-empty after trimming yields the RFC 5987 content-disposition header;
the spec's `{upload:"1GB", download:"2GB"}` example holds. -/
theorem c5_build_headers_structure :
    (∀ jsd : String → Option Int,
      buildSubscriptionHeaders jsd none = ⟨none, none⟩) ∧
    (∀ s, uploadPart (some s) =
      if jsTrim s = "" then [] else ["upload=" ++ showJSNum (parseSize s)]) ∧
    (∀ s, downloadPart (some s) =
      if jsTrim s = "" then []
      else ["download=" ++ showJSNum (parseSize s)]) ∧
    (∀ s, totalPart (some s) =
      if jsTrim s = "" then [] else ["total=" ++ showJSNum (parseSize s)]) ∧
    (uploadPart none = [] ∧ downloadPart none = [] ∧ totalPart none = []) ∧
    (∀ (jsd : String → Option Int) (si : SubInfo),
      (buildSubscriptionHeaders jsd (some si)).userinfo =
        (let parts := uploadPart si.upload ++ downloadPart si.download ++
           totalPart si.total ++ expirePart jsd si.expire
         if parts.length > 0 then some (String.intercalate "; " parts)
         else none)) ∧
    (∀ (jsd : String → Option Int) (si : SubInfo) (s : String),
      si.name = some s → jsTrim s ≠ "" →
      (buildSubscriptionHeaders jsd (some si)).contentDisposition =
        some ("attachment; filename*=UTF-8''" ++
          encodeURIComponent (jsTrim s))) ∧
    (∀ jsd : String → Option Int,
      buildSubscriptionHeaders jsd
        (some ⟨some "1GB", some "2GB", none, none, none⟩) =
      ⟨some "upload=1073741824; download=2147483648", none⟩) := by
  refine ⟨fun _ => rfl, ?_, ?_, ?_, ⟨rfl, rfl, rfl⟩, ?_, ?_, ?_⟩
  · intro s
    by_cases h : jsTrim s = "" <;> simp [uploadPart, truthyTrim_some, h]
  · intro s
    by_cases h : jsTrim s = "" <;> simp [downloadPart, truthyTrim_some, h]
  · intro s
    by_cases h : jsTrim s = "" <;> simp [totalPart, truthyTrim_some, h]
  · intro jsd si
    rw [buildHeaders_decomp]
  · intro jsd si s hname hne
    rw [buildHeaders_decomp]
    simp [nameHeader, hname, truthyTrim_some, hne]
  · intro jsd
    rfl

/-- Witness for C5: the name rule applied at a concrete info record. -/
theorem c5_witness :
    (buildSubscriptionHeaders jsdISO
      (some ⟨none, none, none, none, some "My Sub"⟩)).contentDisposition =
      some ("attachment; filename*=UTF-8''" ++
        encodeURIComponent (jsTrim "My Sub")) :=
  c5_build_headers_structure.2.2.2.2.2.2.1 jsdISO
    ⟨none, none, none, none, some "My Sub"⟩ "My Sub" rfl (by decide)

/-- **C6.** The `expire` field: a (truthy) trimmed value matching the bare
`YYYY-M-D` pattern is parsed with `T23:59:59+08:00` appended (end of day in
UTC+8); any other value is parsed as given; a failed parse omits only the
expire part — the builder's output is the same as with no `expire` at all;
a successful parse appends `expire=⌊ms/1000⌋`; and `expire:"2025-01-01"`
yields exactly the Unix timestamp of 2025-01-01T23:59:59+08:00. -/
theorem c6_expire_parsing :
    (∀ (jsd : String → Option Int) (si : SubInfo) (e : String),
      si.expire = some e → jsTrim e ≠ "" → isBareDate (jsTrim e) = true →
      (buildSubscriptionHeaders jsd (some si)).userinfo =
        (let parts := uploadPart si.upload ++ downloadPart si.download ++
           totalPart si.total ++
           (match jsd (jsTrim e ++ "T23:59:59+08:00") with
            | some t => ["expire=" ++ toString (Int.fdiv t 1000)]
            | none => [])
         if parts.length > 0 then some (String.intercalate "; " parts)
         else none)) ∧
    (∀ (jsd : String → Option Int) (si : SubInfo) (e : String),
      si.expire = some e → jsTrim e ≠ "" → isBareDate (jsTrim e) = false →
      (buildSubscriptionHeaders jsd (some si)).userinfo =
        (let parts := uploadPart si.upload ++ downloadPart si.download ++
           totalPart si.total ++
           (match jsd (jsTrim e) with
            | some t => ["expire=" ++ toString (Int.fdiv t 1000)]
            | none => [])
         if parts.length > 0 then some (String.intercalate "; " parts)
         else none)) ∧
    (∀ (jsd : String → Option Int) (si : SubInfo) (e : String),
      si.expire = some e →
      (if isBareDate (jsTrim e) then jsd (jsTrim e ++ "T23:59:59+08:00")
       else jsd (jsTrim e)) = none →
      buildSubscriptionHeaders jsd (some si) =
        buildSubscriptionHeaders jsd (some { si with expire := none })) ∧
    (buildSubscriptionHeaders jsdISO
      (some ⟨none, none, none, some "2025-01-01", none⟩)).userinfo =
      some "expire=1735747199" ∧
    jsdISO "2025-01-01T23:59:59+08:00" = some 1735747199000 := by
  refine ⟨?_, ?_, ?_, by decide, by decide⟩
  · intro jsd si e he hne hbare
    rw [buildHeaders_decomp]
    have hp : expirePart jsd si.expire =
        (match jsd (jsTrim e ++ "T23:59:59+08:00") with
         | some t => ["expire=" ++ toString (Int.fdiv t 1000)]
         | none => []) := by
      rw [he]
      simp [expirePart, truthyTrim_some, hne, hbare]
    rw [hp]
  · intro jsd si e he hne hbare
    rw [buildHeaders_decomp]
    have hp : expirePart jsd si.expire =
        (match jsd (jsTrim e) with
         | some t => ["expire=" ++ toString (Int.fdiv t 1000)]
         | none => []) := by
      rw [he]
      simp [expirePart, truthyTrim_some, hne, hbare]
    rw [hp]
  · intro jsd si e he hfail
    rw [buildHeaders_decomp, buildHeaders_decomp]
    have hp : expirePart jsd si.expire = [] := by
      rw [he]
      by_cases htr : truthyTrim (some e) = true <;>
        simp [expirePart, htr, hfail]
    have hp2 : expirePart jsd ({ si with expire := none } : SubInfo).expire =
        [] := rfl
    simp [hp, hp2]

/-- Witness for C6: the bare-date rule applied at a concrete info record
with `expire = "2025-01-01"` under the concrete ISO date parser. -/
theorem c6_witness :
    (buildSubscriptionHeaders jsdISO
      (some ⟨none, none, none, some "2025-01-01", none⟩)).userinfo =
      (let parts := uploadPart none ++ downloadPart none ++ totalPart none ++
         (match jsdISO (jsTrim "2025-01-01" ++ "T23:59:59+08:00") with
          | some t => ["expire=" ++ toString (Int.fdiv t 1000)]
          | none => [])
       if parts.length > 0 then some (String.intercalate "; " parts)
       else none) :=
  c6_expire_parsing.1 jsdISO ⟨none, none, none, some "2025-01-01", none⟩
    "2025-01-01" rfl (by decide) (by decide)

/-! ## C7: `parseSize` against the regular expression

`sizeMatch s tok ws u` is the declarative reading of a successful match of
`/^([\d.]+)\s*(GB|MB|TB|KB|B)?$/i` against the (untrimmed) string `s`: a
decomposition into a non-empty digits-and-dots token, whitespace, and a
valid (possibly absent) unit, spanning the entire string.  The three
character classes are pairwise disjoint, so such a decomposition is unique
and is the one the greedy spans of `parseSize` compute. -/

/-- Declarative match of the `parseSize` regular expression against the
whole of `s`. -/
def sizeMatch (s : String) (tok ws u : List Char) : Prop :=
  s.data = tok ++ ws ++ u ∧ tok ≠ [] ∧ (∀ c ∈ tok, isNumChar c = true) ∧
  (∀ c ∈ ws, isJsWs c = true) ∧ (unitMult u).isSome = true

instance (s : String) (tok ws u : List Char) :
    Decidable (sizeMatch s tok ws u) :=
  show Decidable (s.data = tok ++ ws ++ u ∧ tok ≠ [] ∧
    (∀ c ∈ tok, isNumChar c = true) ∧ (∀ c ∈ ws, isJsWs c = true) ∧
    (unitMult u).isSome = true) from inferInstance

lemma spanP_append (p : Char → Bool) (l : List Char) :
    (spanP p l).1 ++ (spanP p l).2 = l := by
  induction l with
  | nil => rfl
  | cons c cs ih =>
    by_cases h : p c <;> simp [spanP, h, ih]

lemma spanP_forall (p : Char → Bool) (l : List Char) :
    ∀ c ∈ (spanP p l).1, p c = true := by
  induction l with
  | nil => intro c hc; simp [spanP] at hc
  | cons c cs ih =>
    intro x hx
    by_cases h : p c
    · simp [spanP, h] at hx
      rcases hx with hx | hx
      · rw [hx]; exact h
      · exact ih x hx
    · simp [spanP, h] at hx

lemma spanP_unique (p : Char → Bool) (a b : List Char)
    (ha : ∀ c ∈ a, p c = true)
    (hb : ∀ c rest, b = c :: rest → p c = false) :
    spanP p (a ++ b) = (a, b) := by
  induction a with
  | nil =>
    cases b with
    | nil => rfl
    | cons c rest => simp [spanP, hb c rest rfl]
  | cons c cs ih =>
    have hc : p c = true := ha c (List.mem_cons_self c cs)
    have ih' := ih fun x hx => ha x (List.mem_cons_of_mem _ hx)
    simp [spanP, hc, ih']

lemma jsWs_not_num {c : Char} (h : isJsWs c = true) : isNumChar c = false := by
  simp only [isJsWs, Bool.or_eq_true, beq_iff_eq] at h
  rcases h with ((((h | h) | h) | h) | h) | h <;> subst h <;> decide

lemma unit_head_classes {c : Char} {rest : List Char} {m : Nat}
    (h : unitMult (c :: rest) = some m) :
    isNumChar c = false ∧ isJsWs c = false := by
  have h10 : c = 'B' ∨ c = 'b' ∨ c = 'K' ∨ c = 'k' ∨ c = 'M' ∨ c = 'm' ∨
      c = 'G' ∨ c = 'g' ∨ c = 'T' ∨ c = 't' := by
    cases rest with
    | nil =>
      by_cases hc : (c == 'B' || c == 'b') = true
      · simp only [Bool.or_eq_true, beq_iff_eq] at hc
        tauto
      · simp [unitMult, hc] at h
    | cons c2 rest2 =>
      cases rest2 with
      | nil =>
        by_cases hc2 : (c2 == 'B' || c2 == 'b') = true
        · by_cases hk : (c == 'K' || c == 'k') = true
          · simp only [Bool.or_eq_true, beq_iff_eq] at hk
            tauto
          · by_cases hM : (c == 'M' || c == 'm') = true
            · simp only [Bool.or_eq_true, beq_iff_eq] at hM
              tauto
            · by_cases hG : (c == 'G' || c == 'g') = true
              · simp only [Bool.or_eq_true, beq_iff_eq] at hG
                tauto
              · by_cases hT : (c == 'T' || c == 't') = true
                · simp only [Bool.or_eq_true, beq_iff_eq] at hT
                  tauto
                · simp [unitMult, hc2, hk, hM, hG, hT] at h
        · simp [unitMult, hc2] at h
      | cons c3 rest3 => simp [unitMult] at h
  rcases h10 with h' | h' | h' | h' | h' | h' | h' | h' | h' | h' <;>
    subst h' <;> exact ⟨by decide, by decide⟩

lemma string_ne_empty_of_data {s : String} {l : List Char}
    (hd : s.data = l) (hl : l ≠ []) : s ≠ "" := by
  intro he
  rw [he] at hd
  exact hl hd.symm

lemma sizeMatch_spans {s : String} {tok ws u : List Char}
    (h : sizeMatch s tok ws u) :
    spanP isNumChar s.data = (tok, ws ++ u) ∧
    spanP isJsWs (ws ++ u) = (ws, u) := by
  obtain ⟨hdata, _, hnum, hws, hunit⟩ := h
  obtain ⟨m, hm⟩ := Option.isSome_iff_exists.mp hunit
  constructor
  · rw [hdata, List.append_assoc]
    apply spanP_unique _ _ _ hnum
    intro c rest hc
    cases ws with
    | cons w wsrest =>
      injection hc with h1 _
      rw [← h1]
      exact jsWs_not_num (hws w (List.mem_cons_self w wsrest))
    | nil =>
      cases u with
      | nil => simp at hc
      | cons uc urest =>
        simp only [List.nil_append] at hc
        injection hc with h1 _
        rw [← h1]
        exact (unit_head_classes hm).1
  · apply spanP_unique _ _ _ hws
    intro c rest hc
    cases u with
    | nil => simp at hc
    | cons uc urest =>
      injection hc with h1 _
      rw [← h1]
      exact (unit_head_classes hm).2

lemma parseSize_of_match {s : String} {tok ws u : List Char} {m : Nat}
    (h : sizeMatch s tok ws u) (hm : unitMult u = some m) :
    parseSize s = sizeValue (parseFloatTok tok) m := by
  obtain ⟨h1, h2⟩ := sizeMatch_spans h
  obtain ⟨hdata, htok, _, _, _⟩ := h
  have hs : s ≠ "" := string_ne_empty_of_data hdata (by
    intro hnil
    rcases List.append_eq_nil.mp (List.append_eq_nil.mp hnil).1 with ⟨ht, _⟩
    exact htok ht)
  simp [parseSize, hs, h1, h2, htok, hm]

lemma parseSize_no_match {s : String}
    (h : ¬ ∃ tok ws u, sizeMatch s tok ws u) : parseSize s = some 0 := by
  by_cases hs : s = ""
  · simp [parseSize, hs]
  · by_cases htok : (spanP isNumChar s.data).1 = []
    · simp [parseSize, hs, htok]
    · cases hu : unitMult (spanP isJsWs (spanP isNumChar s.data).2).2 with
      | none => simp [parseSize, hs, htok, hu]
      | some m =>
        exfalso
        apply h
        refine ⟨(spanP isNumChar s.data).1,
          (spanP isJsWs (spanP isNumChar s.data).2).1,
          (spanP isJsWs (spanP isNumChar s.data).2).2,
          ?_, htok, spanP_forall _ _, spanP_forall _ _, by rw [hu]; rfl⟩
        rw [List.append_assoc, spanP_append, spanP_append]

/-- The claim's reading of `parseSize`: the same regular expression and
value computation, but applied to the **trimmed** string. -/
def parseSizeClaimTrimmed (s : String) : Option Int := parseSize (jsTrim s)

/-- Counterexample to **C7** as stated: the source matches the regular
expression against the untrimmed string, so `parseSize(" 5")` is `0`,
while the claim's "matched against the entire trimmed string" yields `5`. -/
theorem c7_counterexample :
    parseSize " 5" = some 0 ∧ parseSizeClaimTrimmed " 5" = some 5 := by
  decide

/-- **C7 (amended).** For every string `s`, `parseSize` matches a mandatory
token of digits and dots, optional whitespace, and an optional unit from
{B, KB, MB, GB, TB} (case-insensitive) against the entire **untrimmed**
string; any non-matching input (including one with leading whitespace)
yields 0; a match yields the floor of the token's `parseFloat` value times
the power-of-1024 multiplier, where a token without digits (only dots)
yields NaN rather than 0; the claim's concrete examples hold, and
additionally `parseSize(" 5") = 0`. -/
theorem c7_parse_size_amended :
    (∀ s : String, (¬ ∃ tok ws u, sizeMatch s tok ws u) →
      parseSize s = some 0) ∧
    (∀ (s : String) (tok ws u : List Char) (m : Nat), sizeMatch s tok ws u →
      unitMult u = some m →
      parseSize s = sizeValue (parseFloatTok tok) m) ∧
    parseSize "10GB" = some (10 * 1024 ^ 3) ∧ parseSize "" = some 0 ∧
    parseSize "garbage" = some 0 ∧ parseSize "5" = some 5 ∧
    parseSize " 5" = some 0 ∧ parseSize "." = none :=
  ⟨fun _ => parseSize_no_match,
   fun _ _ _ _ _ h hm => parseSize_of_match h hm,
   by decide, by decide, by decide, by decide, by decide, by decide⟩

/-- Witness for the amended C7: the match branch applied at `"10GB"`. -/
theorem c7_witness :
    sizeMatch "10GB" ['1', '0'] [] ['G', 'B'] ∧
    parseSize "10GB" =
      sizeValue (parseFloatTok ['1', '0']) (1024 * 1024 * 1024) :=
  ⟨by decide,
   c7_parse_size_amended.2.1 "10GB" ['1', '0'] [] ['G', 'B']
     (1024 * 1024 * 1024) (by decide) (by decide)⟩

/-! ## C9: upload validation -/

/-- A store with no records. -/
def emptyStore : Store := ⟨fun _ => none, fun _ => none⟩

/-- Counterexample to **C9** as stated: the size and MIME checks exist only
in the multipart branch.  A JSON upload with the blocked MIME type
`image/png` is accepted — it returns success and creates the record —
whereas the claim requires every such upload (multipart *or JSON*) to be
rejected with 400 and no record created. -/
theorem c9_counterexample :
    (handleUpload (UploadBody.jsonBody (some "hello") (some "x.png")
        (some "image/png") (some "file") none false none none none)
      emptyStore 0 "abc12345").2 =
      UploadResult.success "abc12345" "/raw/abc12345" ∧
    ((handleUpload (UploadBody.jsonBody (some "hello") (some "x.png")
        (some "image/png") (some "file") none false none none none)
      emptyStore 0 "abc12345").1.meta "abc12345").isSome = true := by
  decide

/-- **C9 (amended).** A *multipart* upload whose file exceeds the 25MB
ceiling, or whose MIME type is in a blocked category (image/video/audio),
is rejected with 400 and no record is created; the JSON upload path performs
no size or MIME validation at all, so (absent a custom slug) it always
succeeds and creates a record, whatever the content type or size. -/
theorem c9_upload_validation_amended :
    (∀ (store : Store) (now : Int) (freshId : String) (f : MFile)
       (tf bf ef mf sf : Option String) (sif : Option SubInfo),
      f.bytes.length > 25 * 1024 * 1024 →
      handleUpload (UploadBody.multipart (some f) tf bf ef mf sf sif) store
        now freshId = (store, UploadResult.badRequest "Too large")) ∧
    (∀ (store : Store) (now : Int) (freshId : String) (f : MFile)
       (tf bf ef mf sf : Option String) (sif : Option SubInfo),
      f.bytes.length ≤ 25 * 1024 * 1024 →
      isAllowedFile f.name f.mime = false →
      handleUpload (UploadBody.multipart (some f) tf bf ef mf sf sif) store
        now freshId = (store, UploadResult.badRequest "File type blocked")) ∧
    (∀ (store : Store) (now : Int) (freshId : String)
       (c fn ct ty : Option String) (sif : Option SubInfo) (b : Bool)
       (e m : Option Int),
      (handleUpload (UploadBody.jsonBody c fn ct ty sif b e m none) store now
        freshId).2 =
        UploadResult.success freshId
          (if jsOrStr ty "text" = "subscription" then "/sub/" ++ freshId
           else "/raw/" ++ freshId) ∧
      ((handleUpload (UploadBody.jsonBody c fn ct ty sif b e m none) store
        now freshId).1.meta freshId).isSome = true) := by
  refine ⟨?_, ?_, ?_⟩
  · intro store now freshId f tf bf ef mf sf sif hbig
    simp [handleUpload, hbig]
  · intro store now freshId f tf bf ef mf sf sif hsmall hmime
    have hnb : ¬ (f.bytes.length > 25 * 1024 * 1024) := by omega
    simp [handleUpload, hnb, hmime]
  · intro store now freshId c fn ct ty sif b e m
    constructor
    · simp [handleUpload, finishUpload, jsOrNullStr]
    · simp [handleUpload, finishUpload, jsOrNullStr, putMeta]

/-- Witness for the amended C9: a blocked-MIME multipart upload is rejected
with the store untouched, and the same MIME type submitted via JSON is
accepted. -/
theorem c9_witness :
    handleUpload (UploadBody.multipart (some ⟨"x.png", "image/png",
        [1, 2, 3]⟩) none none none none none none) emptyStore 0 "abc12345" =
      (emptyStore, UploadResult.badRequest "File type blocked") ∧
    (handleUpload (UploadBody.jsonBody (some "hello") none (some "image/png")
        none none false none none none) emptyStore 0 "abc12345").2 =
      UploadResult.success "abc12345" "/raw/abc12345" :=
  ⟨c9_upload_validation_amended.2.1 emptyStore 0 "abc12345"
      ⟨"x.png", "image/png", [1, 2, 3]⟩ none none none none none none
      (by decide) (by decide),
   (c9_upload_validation_amended.2.2 emptyStore 0 "abc12345" (some "hello")
      none (some "image/png") none none false none none).1⟩

end DL
